import Mathlib

/-
Verification of the dragonboat rsm state-machine adapter layer
(RegularStateMachine / ConcurrentStateMachine / OnDiskStateMachine)
and of the pebble key-value store's IterateValue.

Shallow embedding conventions:
- Go byte slices are modelled as List Nat; nil slices as [].
- Go errors are Option GoError; none models a nil error, and the
  distinguished sm.ErrNotImplemented value is GoError.notImplemented.
- A Go panic (fatal contract-violation abort) is modelled by the
  Res.fatal constructor carrying the panic message; a normal return is
  Res.ok. Every adapter method returns a Res.
- Opaque interface values handed through unchanged (queries, lookup
  results, writers, readers, stop channels, snapshot files) are
  modelled as Nat. The snapshot context interface value is Option Nat,
  none modelling Go nil.
- The caller-supplied snapshot file collection (ISnapshotFileCollection)
  is modelled by its observable state, a List Nat of registered files;
  a wrapped machine's SaveSnapshot that receives the collection returns
  the collection's final state, making the in-place registration side
  effect explicit.
- A wrapped user state machine is a record of pure functions, one per
  interface method, describing the result of a single call; the two
  optional capabilities (sm.IHash, sm.IExtended) are Option fields,
  present exactly when the dynamic type assertion in the Go
  constructor would succeed.
-/

namespace rsm

/-- Go byte slice. -/
abbrev Bytes := List Nat

/-- A non-nil Go error value. sm.ErrNotImplemented is the distinguished
capability-missing error; every other error is errStr. -/
inductive GoError where
  | notImplemented
  | errStr (s : String)
  deriving DecidableEq, Repr

/-- A Go error result: none is nil, some is a non-nil error. -/
abbrev Error := Option GoError

/-- Result of a call that either returns normally (ok) or aborts
fatally via panic (fatal, carrying the panic message). -/
inductive Res (α : Type) where
  | fatal (msg : String)
  | ok (a : α)
  deriving DecidableEq, Repr

/-- sm.Result: the value produced by applying a command. -/
structure SMResult where
  value : Nat
  data : Bytes
  deriving DecidableEq, Repr

/-- sm.Entry: a log entry handed to Update; Update fills in result. -/
structure Entry where
  index : Nat
  cmd : Bytes
  result : SMResult
  deriving DecidableEq, Repr

/-- Opaque interface{} query value. -/
abbrev Query := Nat

/-- Opaque interface{} lookup result value. -/
abbrev LookupRes := Nat

/-- Opaque io.Writer. -/
abbrev Writer := Nat

/-- Opaque io.Reader. -/
abbrev Reader := Nat

/-- Opaque stop channel (<-chan struct{}). -/
abbrev StopCh := Nat

/-- Opaque sm.SnapshotFile descriptor. -/
abbrev SnapshotFile := Nat

/-- Observable state of an sm.ISnapshotFileCollection: the files
registered so far. -/
abbrev FileCollection := List Nat

/-- Snapshot context interface{} value; none is Go nil. -/
abbrev Ctx := Option Nat

/-- pb.StateMachineType discriminant. -/
inductive StateMachineType where
  | regularStateMachine
  | concurrentStateMachine
  | onDiskStateMachine
  deriving DecidableEq, Repr

/-- Optional sm.IHash capability of a wrapped machine. -/
structure IHash where
  GetHash : Nat × Error

/-- Optional sm.IExtended capability of a wrapped machine. -/
structure IExtended where
  NALookup : Bytes → Bytes × Error

/-- One-call behaviour of a wrapped sm.IStateMachine. -/
structure ISMCore where
  Update : Bytes → SMResult × Error
  Lookup : Query → LookupRes × Error
  SaveSnapshot : Writer → FileCollection → StopCh → FileCollection × Error
  RecoverFromSnapshot : Reader → List SnapshotFile → StopCh → Error
  Close : Error

/-- One-call behaviour of a wrapped sm.IConcurrentStateMachine. -/
structure IConcurrentSMCore where
  Update : List Entry → List Entry × Error
  Lookup : Query → LookupRes × Error
  PrepareSnapshot : Ctx × Error
  SaveSnapshot : Ctx → Writer → FileCollection → StopCh → FileCollection × Error
  RecoverFromSnapshot : Reader → List SnapshotFile → StopCh → Error
  Close : Error

/-- One-call behaviour of a wrapped sm.IOnDiskStateMachine. Note the
source interface: SaveSnapshot takes no file collection and
RecoverFromSnapshot takes no snapshot file list. -/
structure IOnDiskSMCore where
  Open : StopCh → Nat × Error
  Update : List Entry → List Entry × Error
  Lookup : Query → LookupRes × Error
  Sync : Error
  PrepareSnapshot : Ctx × Error
  SaveSnapshot : Ctx → Writer → StopCh → Error
  RecoverFromSnapshot : Reader → StopCh → Error
  Close : Error

/-- A user-supplied machine for the Regular variant: the core interface
plus the optional capabilities its dynamic type provides. -/
structure UserSM where
  core : ISMCore
  hash : Option IHash
  extended : Option IExtended

/-- A user-supplied machine for the Concurrent variant. -/
structure UserConcurrentSM where
  core : IConcurrentSMCore
  hash : Option IHash
  extended : Option IExtended

/-- A user-supplied machine for the on-disk variant. -/
structure UserOnDiskSM where
  core : IOnDiskSMCore
  hash : Option IHash
  extended : Option IExtended

/-- RegularStateMachine adapter state. -/
structure RegularStateMachine where
  sm : ISMCore
  h : Option IHash
  na : Option IExtended

/-- NewRegularStateMachine: capability probing happens once here, by
taking whatever optional capabilities the wrapped machine declares. -/
def NewRegularStateMachine (s : UserSM) : RegularStateMachine :=
  { sm := s.core, h := s.hash, na := s.extended }

/-- RegularStateMachine.Open: always a fatal contract violation. -/
def RegularStateMachine.Open (_s : RegularStateMachine) (_stopc : StopCh) :
    Res (Nat × Error) :=
  Res.fatal "Open() called on RegularStateMachine"

/-- RegularStateMachine.Update: panics unless the batch has exactly one
entry; otherwise fills the entry's result from the wrapped Update. -/
def RegularStateMachine.Update (s : RegularStateMachine)
    (entries : List Entry) : Res (List Entry × Error) :=
  match entries with
  | [e] =>
    let p := s.sm.Update e.cmd
    Res.ok ([{ e with result := p.1 }], p.2)
  | _ => Res.fatal "len(entries) != 1"

/-- RegularStateMachine.Lookup: plain delegation. -/
def RegularStateMachine.Lookup (s : RegularStateMachine) (query : Query) :
    Res (LookupRes × Error) :=
  Res.ok (s.sm.Lookup query)

/-- RegularStateMachine.NALookup: not-implemented unless the extended
capability was detected at construction. -/
def RegularStateMachine.NALookup (s : RegularStateMachine) (query : Bytes) :
    Res (Bytes × Error) :=
  match s.na with
  | none => Res.ok ([], some GoError.notImplemented)
  | some na => Res.ok (na.NALookup query)

/-- RegularStateMachine.Sync: always a fatal contract violation. -/
def RegularStateMachine.Sync (_s : RegularStateMachine) : Res Error :=
  Res.fatal "Sync called on RegularStateMachine"

/-- RegularStateMachine.Prepare: always a fatal contract violation. -/
def RegularStateMachine.Prepare (_s : RegularStateMachine) :
    Res (Ctx × Error) :=
  Res.fatal "PrepareSnapshot called on RegularStateMachine"

/-- RegularStateMachine.Save: panics on a non-nil context, otherwise
delegates to the wrapped SaveSnapshot with the caller's collection. -/
def RegularStateMachine.Save (s : RegularStateMachine) (ctx : Ctx)
    (w : Writer) (fc : FileCollection) (stopc : StopCh) :
    Res (FileCollection × Error) :=
  match ctx with
  | some _ => Res.fatal "ctx is not nil"
  | none => Res.ok (s.sm.SaveSnapshot w fc stopc)

/-- RegularStateMachine.Recover: plain delegation. -/
def RegularStateMachine.Recover (s : RegularStateMachine) (r : Reader)
    (fs : List SnapshotFile) (stopc : StopCh) : Res Error :=
  Res.ok (s.sm.RecoverFromSnapshot r fs stopc)

/-- RegularStateMachine.Close: plain delegation. -/
def RegularStateMachine.Close (s : RegularStateMachine) : Res Error :=
  Res.ok s.sm.Close

/-- RegularStateMachine.GetHash: not-implemented unless the hash
capability was detected at construction. -/
def RegularStateMachine.GetHash (s : RegularStateMachine) :
    Res (Nat × Error) :=
  match s.h with
  | none => Res.ok (0, some GoError.notImplemented)
  | some h => Res.ok h.GetHash

/-- RegularStateMachine.Concurrent: constant false. -/
def RegularStateMachine.Concurrent (_s : RegularStateMachine) : Bool :=
  false

/-- RegularStateMachine.OnDisk: constant false. -/
def RegularStateMachine.OnDisk (_s : RegularStateMachine) : Bool :=
  false

/-- RegularStateMachine.Type: constant discriminant. -/
def RegularStateMachine.stateMachineType (_s : RegularStateMachine) :
    StateMachineType :=
  StateMachineType.regularStateMachine

/-- ConcurrentStateMachine adapter state. -/
structure ConcurrentStateMachine where
  sm : IConcurrentSMCore
  h : Option IHash
  na : Option IExtended

/-- NewConcurrentStateMachine: capability probing at construction. -/
def NewConcurrentStateMachine (s : UserConcurrentSM) :
    ConcurrentStateMachine :=
  { sm := s.core, h := s.hash, na := s.extended }

/-- ConcurrentStateMachine.Open: always a fatal contract violation
(the source's panic message names RegularStateMachine verbatim). -/
def ConcurrentStateMachine.Open (_s : ConcurrentStateMachine)
    (_stopc : StopCh) : Res (Nat × Error) :=
  Res.fatal "Open() called on RegularStateMachine"

/-- ConcurrentStateMachine.Update: plain delegation (any batch size). -/
def ConcurrentStateMachine.Update (s : ConcurrentStateMachine)
    (entries : List Entry) : Res (List Entry × Error) :=
  Res.ok (s.sm.Update entries)

/-- ConcurrentStateMachine.Lookup: plain delegation. -/
def ConcurrentStateMachine.Lookup (s : ConcurrentStateMachine)
    (query : Query) : Res (LookupRes × Error) :=
  Res.ok (s.sm.Lookup query)

/-- ConcurrentStateMachine.NALookup: not-implemented unless the
extended capability was detected at construction. -/
def ConcurrentStateMachine.NALookup (s : ConcurrentStateMachine)
    (query : Bytes) : Res (Bytes × Error) :=
  match s.na with
  | none => Res.ok ([], some GoError.notImplemented)
  | some na => Res.ok (na.NALookup query)

/-- ConcurrentStateMachine.Sync: always a fatal contract violation. -/
def ConcurrentStateMachine.Sync (_s : ConcurrentStateMachine) : Res Error :=
  Res.fatal "Sync called on ConcurrentStateMachine"

/-- ConcurrentStateMachine.Prepare: plain delegation. -/
def ConcurrentStateMachine.Prepare (s : ConcurrentStateMachine) :
    Res (Ctx × Error) :=
  Res.ok s.sm.PrepareSnapshot

/-- ConcurrentStateMachine.Save: delegation threading the context and
the caller's file collection through. -/
def ConcurrentStateMachine.Save (s : ConcurrentStateMachine) (ctx : Ctx)
    (w : Writer) (fc : FileCollection) (stopc : StopCh) :
    Res (FileCollection × Error) :=
  Res.ok (s.sm.SaveSnapshot ctx w fc stopc)

/-- ConcurrentStateMachine.Recover: plain delegation. -/
def ConcurrentStateMachine.Recover (s : ConcurrentStateMachine)
    (r : Reader) (fs : List SnapshotFile) (stopc : StopCh) : Res Error :=
  Res.ok (s.sm.RecoverFromSnapshot r fs stopc)

/-- ConcurrentStateMachine.Close: plain delegation. -/
def ConcurrentStateMachine.Close (s : ConcurrentStateMachine) : Res Error :=
  Res.ok s.sm.Close

/-- ConcurrentStateMachine.GetHash: not-implemented unless the hash
capability was detected at construction. -/
def ConcurrentStateMachine.GetHash (s : ConcurrentStateMachine) :
    Res (Nat × Error) :=
  match s.h with
  | none => Res.ok (0, some GoError.notImplemented)
  | some h => Res.ok h.GetHash

/-- ConcurrentStateMachine.Concurrent: constant true. -/
def ConcurrentStateMachine.Concurrent (_s : ConcurrentStateMachine) :
    Bool :=
  true

/-- ConcurrentStateMachine.OnDisk: constant false. -/
def ConcurrentStateMachine.OnDisk (_s : ConcurrentStateMachine) : Bool :=
  false

/-- ConcurrentStateMachine.Type: constant discriminant. -/
def ConcurrentStateMachine.stateMachineType (_s : ConcurrentStateMachine) :
    StateMachineType :=
  StateMachineType.concurrentStateMachine

/-- OnDiskStateMachine adapter state, with the opened lifecycle flag. -/
structure OnDiskStateMachine where
  sm : IOnDiskSMCore
  h : Option IHash
  na : Option IExtended
  opened : Bool

/-- NewOnDiskStateMachine: capability probing at construction; the
opened flag starts false. -/
def NewOnDiskStateMachine (s : UserOnDiskSM) : OnDiskStateMachine :=
  { sm := s.core, h := s.hash, na := s.extended, opened := false }

/-- OnDiskStateMachine.Open: panics when already opened, otherwise
sets opened and delegates; on a wrapped error it returns 0 and the
error, otherwise the recovered index. The updated adapter state is
returned alongside the Go results. -/
def OnDiskStateMachine.Open (s : OnDiskStateMachine) (stopc : StopCh) :
    Res (OnDiskStateMachine × Nat × Error) :=
  if s.opened then
    Res.fatal "Open called more than once on OnDiskStateMachine"
  else
    match s.sm.Open stopc with
    | (_, some e) => Res.ok ({ s with opened := true }, 0, some e)
    | (applied, none) => Res.ok ({ s with opened := true }, applied, none)

/-- OnDiskStateMachine.Update: panics before Open, then delegates. -/
def OnDiskStateMachine.Update (s : OnDiskStateMachine)
    (entries : List Entry) : Res (List Entry × Error) :=
  if s.opened then Res.ok (s.sm.Update entries)
  else Res.fatal "Update called before Open"

/-- OnDiskStateMachine.Lookup: panics before Open, then delegates. -/
def OnDiskStateMachine.Lookup (s : OnDiskStateMachine) (query : Query) :
    Res (LookupRes × Error) :=
  if s.opened then Res.ok (s.sm.Lookup query)
  else Res.fatal "Lookup called when not opened"

/-- OnDiskStateMachine.NALookup: no opened guard; not-implemented
unless the extended capability was detected at construction. -/
def OnDiskStateMachine.NALookup (s : OnDiskStateMachine) (query : Bytes) :
    Res (Bytes × Error) :=
  match s.na with
  | none => Res.ok ([], some GoError.notImplemented)
  | some na => Res.ok (na.NALookup query)

/-- OnDiskStateMachine.Sync: panics before Open, then delegates. -/
def OnDiskStateMachine.Sync (s : OnDiskStateMachine) : Res Error :=
  if s.opened then Res.ok s.sm.Sync
  else Res.fatal "Sync called when not opened"

/-- OnDiskStateMachine.Prepare: panics before Open, then delegates. -/
def OnDiskStateMachine.Prepare (s : OnDiskStateMachine) :
    Res (Ctx × Error) :=
  if s.opened then Res.ok s.sm.PrepareSnapshot
  else Res.fatal "PrepareSnapshot called when not opened"

/-- OnDiskStateMachine.Save: panics before Open, then delegates to the
wrapped SaveSnapshot. The source passes only (ctx, w, stopc): the
caller's file collection fc is not handed to the wrapped machine, so
the collection is returned unchanged. -/
def OnDiskStateMachine.Save (s : OnDiskStateMachine) (ctx : Ctx)
    (w : Writer) (fc : FileCollection) (stopc : StopCh) :
    Res (FileCollection × Error) :=
  if s.opened then Res.ok (fc, s.sm.SaveSnapshot ctx w stopc)
  else Res.fatal "SaveSnapshot called when not opened"

/-- OnDiskStateMachine.Recover: panics before Open, then delegates to
the wrapped RecoverFromSnapshot, which takes no snapshot file list. -/
def OnDiskStateMachine.Recover (s : OnDiskStateMachine) (r : Reader)
    (_fs : List SnapshotFile) (stopc : StopCh) : Res Error :=
  if s.opened then Res.ok (s.sm.RecoverFromSnapshot r stopc)
  else Res.fatal "RecoverFromSnapshot called when not opened"

/-- OnDiskStateMachine.Close: no opened guard; plain delegation. -/
def OnDiskStateMachine.Close (s : OnDiskStateMachine) : Res Error :=
  Res.ok s.sm.Close

/-- OnDiskStateMachine.GetHash: no opened guard; not-implemented
unless the hash capability was detected at construction. -/
def OnDiskStateMachine.GetHash (s : OnDiskStateMachine) :
    Res (Nat × Error) :=
  match s.h with
  | none => Res.ok (0, some GoError.notImplemented)
  | some h => Res.ok h.GetHash

/-- OnDiskStateMachine.Concurrent: constant true. -/
def OnDiskStateMachine.Concurrent (_s : OnDiskStateMachine) : Bool :=
  true

/-- OnDiskStateMachine.OnDisk: constant true. -/
def OnDiskStateMachine.OnDisk (_s : OnDiskStateMachine) : Bool :=
  true

/-- OnDiskStateMachine.Type: constant discriminant. -/
def OnDiskStateMachine.stateMachineType (_s : OnDiskStateMachine) :
    StateMachineType :=
  StateMachineType.onDiskStateMachine

end rsm

namespace rsm

/-- Sample wrapped regular machine used to instantiate witnesses. -/
def coreA : ISMCore :=
  { Update := fun c => ({ value := c.length, data := c }, some (GoError.errStr "u")),
    Lookup := fun q => (q + 1, none),
    SaveSnapshot := fun w fc _ => (w :: fc, some (GoError.errStr "s")),
    RecoverFromSnapshot := fun _ _ _ => some (GoError.errStr "r"),
    Close := some (GoError.errStr "c") }

/-- Sample wrapped concurrent machine used to instantiate witnesses. -/
def coreC : IConcurrentSMCore :=
  { Update := fun es => (es, some (GoError.errStr "cu")),
    Lookup := fun q => (q + 2, none),
    PrepareSnapshot := (some 5, none),
    SaveSnapshot := fun _ w fc _ => (w :: fc, some (GoError.errStr "cs")),
    RecoverFromSnapshot := fun _ _ _ => some (GoError.errStr "cr"),
    Close := some (GoError.errStr "cc") }

/-- Sample wrapped on-disk machine used to instantiate witnesses. -/
def coreD : IOnDiskSMCore :=
  { Open := fun _ => (42, none),
    Update := fun es => (es, some (GoError.errStr "du")),
    Lookup := fun q => (q + 3, none),
    Sync := some (GoError.errStr "dy"),
    PrepareSnapshot := (some 6, none),
    SaveSnapshot := fun _ _ _ => some (GoError.errStr "ds"),
    RecoverFromSnapshot := fun _ _ => some (GoError.errStr "dr"),
    Close := some (GoError.errStr "dc") }

/-- Sample hash capability. -/
def hashA : IHash := { GetHash := (99, none) }

/-- Sample extended-lookup capability. -/
def extA : IExtended := { NALookup := fun q => (0 :: q, none) }

/-- Sample entry. -/
def e0 : Entry := { index := 1, cmd := [1, 2], result := { value := 0, data := [] } }

/-- Regular adapter over a machine with no optional capabilities. -/
def regNone : RegularStateMachine :=
  NewRegularStateMachine { core := coreA, hash := none, extended := none }

/-- Regular adapter over a machine with both optional capabilities. -/
def regCap : RegularStateMachine :=
  NewRegularStateMachine { core := coreA, hash := some hashA, extended := some extA }

/-- Concurrent adapter over a machine with no optional capabilities. -/
def conNone : ConcurrentStateMachine :=
  NewConcurrentStateMachine { core := coreC, hash := none, extended := none }

/-- Concurrent adapter over a machine with both optional capabilities. -/
def conCap : ConcurrentStateMachine :=
  NewConcurrentStateMachine { core := coreC, hash := some hashA, extended := some extA }

/-- Freshly constructed (unopened) on-disk adapter, no capabilities. -/
def odClosed : OnDiskStateMachine :=
  NewOnDiskStateMachine { core := coreD, hash := none, extended := none }

/-- Opened on-disk adapter, no capabilities. -/
def odOpen : OnDiskStateMachine := { odClosed with opened := true }

/-- Freshly constructed (unopened) on-disk adapter with capabilities. -/
def odCapClosed : OnDiskStateMachine :=
  NewOnDiskStateMachine { core := coreD, hash := some hashA, extended := some extA }

/-- Opened on-disk adapter with capabilities. -/
def odCapOpen : OnDiskStateMachine := { odCapClosed with opened := true }

end rsm

namespace rsm

/-- C1: for the on-disk variant, Update, Lookup, Sync, Prepare, Save and
Recover all abort fatally before Open; Open aborts fatally once the
adapter is already opened; a first Open succeeds (marking the adapter
opened); and on an opened adapter every one of those operations
delegates to the wrapped machine with no additional guard. -/
theorem C1_onDisk_lifecycle (s t : OnDiskStateMachine)
    (hs : s.opened = false) (ht : t.opened = true)
    (entries : List Entry) (q : Query) (ctx : Ctx) (w : Writer)
    (fc : FileCollection) (stopc : StopCh) (r : Reader)
    (fs : List SnapshotFile) :
    OnDiskStateMachine.Update s entries =
      Res.fatal "Update called before Open" ∧
    OnDiskStateMachine.Lookup s q =
      Res.fatal "Lookup called when not opened" ∧
    OnDiskStateMachine.Sync s =
      Res.fatal "Sync called when not opened" ∧
    OnDiskStateMachine.Prepare s =
      Res.fatal "PrepareSnapshot called when not opened" ∧
    OnDiskStateMachine.Save s ctx w fc stopc =
      Res.fatal "SaveSnapshot called when not opened" ∧
    OnDiskStateMachine.Recover s r fs stopc =
      Res.fatal "RecoverFromSnapshot called when not opened" ∧
    OnDiskStateMachine.Open t stopc =
      Res.fatal "Open called more than once on OnDiskStateMachine" ∧
    (∃ v, OnDiskStateMachine.Open s stopc =
      Res.ok ({ s with opened := true }, v)) ∧
    OnDiskStateMachine.Update t entries = Res.ok (t.sm.Update entries) ∧
    OnDiskStateMachine.Lookup t q = Res.ok (t.sm.Lookup q) ∧
    OnDiskStateMachine.Sync t = Res.ok t.sm.Sync ∧
    OnDiskStateMachine.Prepare t = Res.ok t.sm.PrepareSnapshot ∧
    OnDiskStateMachine.Save t ctx w fc stopc =
      Res.ok (fc, t.sm.SaveSnapshot ctx w stopc) ∧
    OnDiskStateMachine.Recover t r fs stopc =
      Res.ok (t.sm.RecoverFromSnapshot r stopc) := by
  refine ⟨by simp [OnDiskStateMachine.Update, hs],
    by simp [OnDiskStateMachine.Lookup, hs],
    by simp [OnDiskStateMachine.Sync, hs],
    by simp [OnDiskStateMachine.Prepare, hs],
    by simp [OnDiskStateMachine.Save, hs],
    by simp [OnDiskStateMachine.Recover, hs],
    by simp [OnDiskStateMachine.Open, ht], ?_,
    by simp [OnDiskStateMachine.Update, ht],
    by simp [OnDiskStateMachine.Lookup, ht],
    by simp [OnDiskStateMachine.Sync, ht],
    by simp [OnDiskStateMachine.Prepare, ht],
    by simp [OnDiskStateMachine.Save, ht],
    by simp [OnDiskStateMachine.Recover, ht]⟩
  rcases ho : s.sm.Open stopc with ⟨a, e⟩
  cases e with
  | none => exact ⟨(a, none), by simp [OnDiskStateMachine.Open, hs, ho]⟩
  | some ge => exact ⟨(0, some ge), by simp [OnDiskStateMachine.Open, hs, ho]⟩

/-- C1 witness: the lifecycle theorem instantiated with a concrete
closed and a concrete opened adapter. -/
theorem C1_onDisk_lifecycle_witness :
    OnDiskStateMachine.Update odClosed [e0] =
      Res.fatal "Update called before Open" ∧
    OnDiskStateMachine.Open odOpen 0 =
      Res.fatal "Open called more than once on OnDiskStateMachine" ∧
    OnDiskStateMachine.Update odOpen [e0] =
      Res.ok ([e0], some (GoError.errStr "du")) :=
  ⟨(C1_onDisk_lifecycle odClosed odOpen rfl rfl [e0] 0 none 0 [] 0 0 []).1,
   (C1_onDisk_lifecycle odClosed odOpen rfl rfl [e0] 0 none 0 [] 0 0
      []).2.2.2.2.2.2.1,
   (C1_onDisk_lifecycle odClosed odOpen rfl rfl [e0] 0 none 0 [] 0 0
      []).2.2.2.2.2.2.2.2.1⟩

/-- C2: Regular Update aborts fatally on any batch whose length is not
1; on a singleton batch it returns that entry with its result field set
from the wrapped Update of the entry's command, together with the
wrapped error; in particular a nil wrapped error yields a nil returned
error. -/
theorem C2_regular_update (s : RegularStateMachine) (e : Entry)
    (entries : List Entry) (hlen : entries.length ≠ 1) :
    RegularStateMachine.Update s entries = Res.fatal "len(entries) != 1" ∧
    RegularStateMachine.Update s [e] =
      Res.ok ([{ e with result := (s.sm.Update e.cmd).1 }],
        (s.sm.Update e.cmd).2) ∧
    ((s.sm.Update e.cmd).2 = none →
      RegularStateMachine.Update s [e] =
        Res.ok ([{ e with result := (s.sm.Update e.cmd).1 }], none)) := by
  refine ⟨?_, rfl, ?_⟩
  · match entries with
    | [] => rfl
    | [x] => exact absurd rfl hlen
    | x :: y :: rest => rfl
  · intro hnone
    simp [RegularStateMachine.Update, hnone]

/-- C2 witness: concrete singleton and non-singleton batches. -/
theorem C2_regular_update_witness :
    RegularStateMachine.Update regNone [] = Res.fatal "len(entries) != 1" ∧
    RegularStateMachine.Update regNone [e0] =
      Res.ok ([{ e0 with result := { value := 2, data := [1, 2] } }],
        some (GoError.errStr "u")) :=
  ⟨(C2_regular_update regNone e0 [] (by decide)).1,
   (C2_regular_update regNone e0 [] (by decide)).2.1⟩

/-- C3: Regular Save aborts fatally on any non-nil context; on a nil
context it delegates to the wrapped SaveSnapshot and returns exactly
the wrapped result, error included. -/
theorem C3_regular_save (s : RegularStateMachine) (c : Nat) (w : Writer)
    (fc : FileCollection) (stopc : StopCh) :
    RegularStateMachine.Save s (some c) w fc stopc =
      Res.fatal "ctx is not nil" ∧
    RegularStateMachine.Save s none w fc stopc =
      Res.ok (s.sm.SaveSnapshot w fc stopc) :=
  ⟨rfl, rfl⟩

/-- C4: Open, Sync and Prepare on the Regular variant, and Open and
Sync on the Concurrent variant, abort fatally in every adapter state. -/
theorem C4_unsupported_ops_fatal (s : RegularStateMachine)
    (t : ConcurrentStateMachine) (stopc : StopCh) :
    RegularStateMachine.Open s stopc =
      Res.fatal "Open() called on RegularStateMachine" ∧
    RegularStateMachine.Sync s =
      Res.fatal "Sync called on RegularStateMachine" ∧
    RegularStateMachine.Prepare s =
      Res.fatal "PrepareSnapshot called on RegularStateMachine" ∧
    ConcurrentStateMachine.Open t stopc =
      Res.fatal "Open() called on RegularStateMachine" ∧
    ConcurrentStateMachine.Sync t =
      Res.fatal "Sync called on ConcurrentStateMachine" :=
  ⟨rfl, rfl, rfl, rfl, rfl⟩

end rsm

namespace rsm

/-- C5: an adapter built over a wrapped machine lacking the hash
capability answers every GetHash call with the not-implemented error
(a constant, independent of the wrapped core, so the wrapped machine is
never consulted); likewise for the extended-lookup capability and
NALookup, for all three variants. -/
theorem C5_capability_detection (u : UserSM) (uc : UserConcurrentSM)
    (ud : UserOnDiskSM) (q : Bytes)
    (hh : u.hash = none) (he : u.extended = none)
    (hch : uc.hash = none) (hce : uc.extended = none)
    (hdh : ud.hash = none) (hde : ud.extended = none) :
    RegularStateMachine.GetHash (NewRegularStateMachine u) =
      Res.ok (0, some GoError.notImplemented) ∧
    RegularStateMachine.NALookup (NewRegularStateMachine u) q =
      Res.ok ([], some GoError.notImplemented) ∧
    ConcurrentStateMachine.GetHash (NewConcurrentStateMachine uc) =
      Res.ok (0, some GoError.notImplemented) ∧
    ConcurrentStateMachine.NALookup (NewConcurrentStateMachine uc) q =
      Res.ok ([], some GoError.notImplemented) ∧
    OnDiskStateMachine.GetHash (NewOnDiskStateMachine ud) =
      Res.ok (0, some GoError.notImplemented) ∧
    OnDiskStateMachine.NALookup (NewOnDiskStateMachine ud) q =
      Res.ok ([], some GoError.notImplemented) := by
  refine ⟨?_, ?_, ?_, ?_, ?_, ?_⟩ <;>
    simp [RegularStateMachine.GetHash, RegularStateMachine.NALookup,
      ConcurrentStateMachine.GetHash, ConcurrentStateMachine.NALookup,
      OnDiskStateMachine.GetHash, OnDiskStateMachine.NALookup,
      NewRegularStateMachine, NewConcurrentStateMachine,
      NewOnDiskStateMachine, hh, he, hch, hce, hdh, hde]

/-- C5 witness: concrete capability-free machines for each variant. -/
theorem C5_capability_detection_witness :
    RegularStateMachine.GetHash regNone =
      Res.ok (0, some GoError.notImplemented) ∧
    OnDiskStateMachine.NALookup odClosed [7] =
      Res.ok ([], some GoError.notImplemented) :=
  ⟨(C5_capability_detection
      { core := coreA, hash := none, extended := none }
      { core := coreC, hash := none, extended := none }
      { core := coreD, hash := none, extended := none }
      [7] rfl rfl rfl rfl rfl rfl).1,
   (C5_capability_detection
      { core := coreA, hash := none, extended := none }
      { core := coreC, hash := none, extended := none }
      { core := coreD, hash := none, extended := none }
      [7] rfl rfl rfl rfl rfl rfl).2.2.2.2.2⟩

/-- The on-disk Save can hand files to the wrapped machine through the
caller's collection: the property C6 asserts for every variant. -/
def onDiskSaveCanRegister : Prop :=
  ∃ (d : OnDiskStateMachine) (ctx : Ctx) (w : Writer)
    (fc : FileCollection) (stopc : StopCh) (out : FileCollection × Error),
    OnDiskStateMachine.Save d ctx w fc stopc = Res.ok out ∧ out.1 ≠ fc

/-- C6 counterexample: for the on-disk variant the file collection is
never handed to the wrapped machine — no on-disk Save call can change
the collection, refuting the for-every-variant claim. -/
theorem C6_counterexample_onDisk_fc_dropped : ¬ onDiskSaveCanRegister := by
  rintro ⟨d, ctx, w, fc, stopc, out, heq, hne⟩
  by_cases hd : d.opened
  · rw [OnDiskStateMachine.Save, if_pos hd] at heq
    cases heq
    exact hne rfl
  · rw [OnDiskStateMachine.Save, if_neg hd] at heq
    cases heq

/-- C6 amended: the Regular variant (under its nil-context
precondition) and the Concurrent variant pass the caller's file
collection through to the wrapped machine's snapshot save; the on-disk
variant's wrapped snapshot save takes no file collection, so Save
returns the caller's collection unchanged alongside the wrapped
error. -/
theorem C6_save_file_collection (s : RegularStateMachine)
    (t : ConcurrentStateMachine) (d : OnDiskStateMachine)
    (hd : d.opened = true) (ctx : Ctx) (w : Writer)
    (fc : FileCollection) (stopc : StopCh) :
    RegularStateMachine.Save s none w fc stopc =
      Res.ok (s.sm.SaveSnapshot w fc stopc) ∧
    ConcurrentStateMachine.Save t ctx w fc stopc =
      Res.ok (t.sm.SaveSnapshot ctx w fc stopc) ∧
    OnDiskStateMachine.Save d ctx w fc stopc =
      Res.ok (fc, d.sm.SaveSnapshot ctx w stopc) := by
  refine ⟨rfl, rfl, ?_⟩
  simp [OnDiskStateMachine.Save, hd]

/-- C6 witness: concrete Save calls for the three variants; the
concurrent wrapped machine registers file 3 into the collection, the
on-disk Save leaves the collection untouched. -/
theorem C6_save_file_collection_witness :
    RegularStateMachine.Save regNone none 3 [8] 0 =
      Res.ok ([3, 8], some (GoError.errStr "s")) ∧
    ConcurrentStateMachine.Save conNone (some 1) 3 [8] 0 =
      Res.ok ([3, 8], some (GoError.errStr "cs")) ∧
    OnDiskStateMachine.Save odOpen (some 1) 3 [8] 0 =
      Res.ok ([8], some (GoError.errStr "ds")) :=
  C6_save_file_collection regNone conNone odOpen rfl (some 1) 3 [8] 0

end rsm

namespace rsm

/-- C7: for each variant, Update, Lookup, Save, Recover, Close and (with
the hash capability detected) GetHash return the wrapped machine's
error value unchanged — each result carries exactly the wrapped call's
error component, with no wrapping, substitution or suppression. The
variant-specific preconditions (singleton batch and nil context for
Regular, opened adapter for on-disk) are assumed so the calls reach the
wrapped machine. -/
theorem C7_error_propagation (s : RegularStateMachine)
    (t : ConcurrentStateMachine) (d : OnDiskStateMachine)
    (hd : d.opened = true) (hh : IHash) (hsh : s.h = some hh)
    (hth : t.h = some hh) (hdh : d.h = some hh) (e : Entry)
    (es : List Entry) (q : Query) (ctx : Ctx) (w : Writer)
    (fc : FileCollection) (stopc : StopCh) (r : Reader)
    (fs : List SnapshotFile) :
    (RegularStateMachine.Update s [e] =
      Res.ok ([{ e with result := (s.sm.Update e.cmd).1 }],
        (s.sm.Update e.cmd).2) ∧
     RegularStateMachine.Lookup s q = Res.ok (s.sm.Lookup q) ∧
     RegularStateMachine.Save s none w fc stopc =
       Res.ok (s.sm.SaveSnapshot w fc stopc) ∧
     RegularStateMachine.Recover s r fs stopc =
       Res.ok (s.sm.RecoverFromSnapshot r fs stopc) ∧
     RegularStateMachine.Close s = Res.ok s.sm.Close ∧
     RegularStateMachine.GetHash s = Res.ok hh.GetHash) ∧
    (ConcurrentStateMachine.Update t es = Res.ok (t.sm.Update es) ∧
     ConcurrentStateMachine.Lookup t q = Res.ok (t.sm.Lookup q) ∧
     ConcurrentStateMachine.Save t ctx w fc stopc =
       Res.ok (t.sm.SaveSnapshot ctx w fc stopc) ∧
     ConcurrentStateMachine.Recover t r fs stopc =
       Res.ok (t.sm.RecoverFromSnapshot r fs stopc) ∧
     ConcurrentStateMachine.Close t = Res.ok t.sm.Close ∧
     ConcurrentStateMachine.GetHash t = Res.ok hh.GetHash) ∧
    (OnDiskStateMachine.Update d es = Res.ok (d.sm.Update es) ∧
     OnDiskStateMachine.Lookup d q = Res.ok (d.sm.Lookup q) ∧
     OnDiskStateMachine.Save d ctx w fc stopc =
       Res.ok (fc, d.sm.SaveSnapshot ctx w stopc) ∧
     OnDiskStateMachine.Recover d r fs stopc =
       Res.ok (d.sm.RecoverFromSnapshot r stopc) ∧
     OnDiskStateMachine.Close d = Res.ok d.sm.Close ∧
     OnDiskStateMachine.GetHash d = Res.ok hh.GetHash) := by
  refine ⟨⟨rfl, rfl, rfl, rfl, rfl, ?_⟩, ⟨rfl, rfl, rfl, rfl, rfl, ?_⟩,
    ⟨?_, ?_, ?_, ?_, rfl, ?_⟩⟩ <;>
    simp [RegularStateMachine.GetHash, ConcurrentStateMachine.GetHash,
      OnDiskStateMachine.GetHash, OnDiskStateMachine.Update,
      OnDiskStateMachine.Lookup, OnDiskStateMachine.Save,
      OnDiskStateMachine.Recover, hd, hsh, hth, hdh]

/-- C7 witness: the propagation theorem at concrete adapters whose
wrapped machines return distinctive errors. -/
theorem C7_error_propagation_witness :
    (RegularStateMachine.Update regCap [e0] =
      Res.ok ([{ e0 with result := { value := 2, data := [1, 2] } }],
        some (GoError.errStr "u")) ∧
     RegularStateMachine.Lookup regCap 4 = Res.ok (5, none) ∧
     RegularStateMachine.Save regCap none 3 [8] 0 =
       Res.ok ([3, 8], some (GoError.errStr "s")) ∧
     RegularStateMachine.Recover regCap 2 [1] 0 =
       Res.ok (some (GoError.errStr "r")) ∧
     RegularStateMachine.Close regCap =
       Res.ok (some (GoError.errStr "c")) ∧
     RegularStateMachine.GetHash regCap = Res.ok (99, none)) ∧
    (ConcurrentStateMachine.Update conCap [e0, e0] =
      Res.ok ([e0, e0], some (GoError.errStr "cu")) ∧
     ConcurrentStateMachine.Lookup conCap 4 = Res.ok (6, none) ∧
     ConcurrentStateMachine.Save conCap (some 1) 3 [8] 0 =
       Res.ok ([3, 8], some (GoError.errStr "cs")) ∧
     ConcurrentStateMachine.Recover conCap 2 [1] 0 =
       Res.ok (some (GoError.errStr "cr")) ∧
     ConcurrentStateMachine.Close conCap =
       Res.ok (some (GoError.errStr "cc")) ∧
     ConcurrentStateMachine.GetHash conCap = Res.ok (99, none)) ∧
    (OnDiskStateMachine.Update odCapOpen [e0, e0] =
      Res.ok ([e0, e0], some (GoError.errStr "du")) ∧
     OnDiskStateMachine.Lookup odCapOpen 4 = Res.ok (7, none) ∧
     OnDiskStateMachine.Save odCapOpen (some 1) 3 [8] 0 =
       Res.ok ([8], some (GoError.errStr "ds")) ∧
     OnDiskStateMachine.Recover odCapOpen 2 [1] 0 =
       Res.ok (some (GoError.errStr "dr")) ∧
     OnDiskStateMachine.Close odCapOpen =
       Res.ok (some (GoError.errStr "dc")) ∧
     OnDiskStateMachine.GetHash odCapOpen = Res.ok (99, none)) :=
  C7_error_propagation regCap conCap odCapOpen rfl hashA rfl rfl rfl
    e0 [e0, e0] 4 (some 1) 3 [8] 0 2 [1]

/-- C8: Type, Concurrent and OnDisk are pure constants of each variant,
independent of the adapter state (hence identical on every call over
the adapter's lifetime), and mutually consistent: OnDisk true implies
Concurrent true, and Type returns the matching discriminant. -/
theorem C8_static_flags (s : RegularStateMachine)
    (t : ConcurrentStateMachine) (d : OnDiskStateMachine) :
    RegularStateMachine.Concurrent s = false ∧
    RegularStateMachine.OnDisk s = false ∧
    RegularStateMachine.stateMachineType s =
      StateMachineType.regularStateMachine ∧
    ConcurrentStateMachine.Concurrent t = true ∧
    ConcurrentStateMachine.OnDisk t = false ∧
    ConcurrentStateMachine.stateMachineType t =
      StateMachineType.concurrentStateMachine ∧
    OnDiskStateMachine.Concurrent d = true ∧
    OnDiskStateMachine.OnDisk d = true ∧
    OnDiskStateMachine.stateMachineType d =
      StateMachineType.onDiskStateMachine ∧
    (RegularStateMachine.OnDisk s = true →
      RegularStateMachine.Concurrent s = true) ∧
    (ConcurrentStateMachine.OnDisk t = true →
      ConcurrentStateMachine.Concurrent t = true) ∧
    (OnDiskStateMachine.OnDisk d = true →
      OnDiskStateMachine.Concurrent d = true) := by
  refine ⟨rfl, rfl, rfl, rfl, rfl, rfl, rfl, rfl, rfl, ?_, ?_, ?_⟩
  · intro h
    cases h
  · intro _
    rfl
  · intro _
    rfl

/-- C8 witness: the flag theorem at concrete adapters, with the
on-disk consistency implication discharged. -/
theorem C8_static_flags_witness :
    OnDiskStateMachine.Concurrent odOpen = true ∧
    RegularStateMachine.stateMachineType regNone =
      StateMachineType.regularStateMachine :=
  ⟨(C8_static_flags regNone conNone odOpen).2.2.2.2.2.2.2.2.2.2.2 rfl,
   (C8_static_flags regNone conNone odOpen).2.2.1⟩

/-- C10: on the on-disk variant, NALookup, GetHash and Close are not
gated by the opened flag: on a never-opened adapter none of them
aborts; NALookup and GetHash answer not-implemented or the wrapped
capability's result, and Close delegates directly to the wrapped
machine. -/
theorem C10_onDisk_ungated_ops (s : OnDiskStateMachine)
    (_hs : s.opened = false) (q : Bytes) :
    (s.na = none → OnDiskStateMachine.NALookup s q =
      Res.ok ([], some GoError.notImplemented)) ∧
    (∀ na, s.na = some na → OnDiskStateMachine.NALookup s q =
      Res.ok (na.NALookup q)) ∧
    (s.h = none → OnDiskStateMachine.GetHash s =
      Res.ok (0, some GoError.notImplemented)) ∧
    (∀ hh, s.h = some hh → OnDiskStateMachine.GetHash s =
      Res.ok hh.GetHash) ∧
    OnDiskStateMachine.Close s = Res.ok s.sm.Close := by
  refine ⟨?_, ?_, ?_, ?_, rfl⟩
  · intro h
    simp [OnDiskStateMachine.NALookup, h]
  · intro na h
    simp [OnDiskStateMachine.NALookup, h]
  · intro h
    simp [OnDiskStateMachine.GetHash, h]
  · intro hh h
    simp [OnDiskStateMachine.GetHash, h]

/-- C10 witness: unopened adapters answering NALookup, GetHash and
Close without a fatal abort. -/
theorem C10_onDisk_ungated_ops_witness :
    OnDiskStateMachine.NALookup odClosed [5] =
      Res.ok ([], some GoError.notImplemented) ∧
    OnDiskStateMachine.GetHash odCapClosed = Res.ok (99, none) ∧
    OnDiskStateMachine.Close odClosed =
      Res.ok (some (GoError.errStr "dc")) :=
  ⟨(C10_onDisk_ungated_ops odClosed rfl [5]).1 rfl,
   (C10_onDisk_ungated_ops odCapClosed rfl [5]).2.2.2.1 hashA rfl,
   (C10_onDisk_ungated_ops odClosed rfl [5]).2.2.2.2⟩

end rsm

namespace pebble

/-- Go byte-string key. -/
abbrev Key := List Nat

/-- Go byte-string value. -/
abbrev Val := List Nat

/-- Iteration callback error result; none is nil. -/
abbrev Err := Option String

/-- bytes.Compare: lexicographic comparison of byte strings, a strict
prefix ordering below its extensions. -/
def bytesCompare : Key → Key → Ordering
  | [], [] => Ordering.eq
  | [], _ :: _ => Ordering.lt
  | _ :: _, [] => Ordering.gt
  | a :: as, b :: bs =>
    match compare a b with
    | Ordering.eq => bytesCompare as bs
    | o => o

/-- Head characterisation of a strict bytesCompare comparison. -/
theorem bytesCompare_cons_lt {x y : Nat} {as bs : Key} :
    bytesCompare (x :: as) (y :: bs) = Ordering.lt ↔
      x < y ∨ (x = y ∧ bytesCompare as bs = Ordering.lt) := by
  simp only [bytesCompare]
  cases h : compare x y with
  | lt =>
    have hxy := Nat.compare_eq_lt.mp h
    simp [h, hxy]
  | eq =>
    have hxy := Nat.compare_eq_eq.mp h
    simp [h, hxy]
  | gt =>
    have hxy := Nat.compare_eq_gt.mp h
    constructor
    · intro hc
      simp at hc
    · intro hc
      rcases hc with hlt | ⟨heq, _⟩
      · omega
      · omega

/-- Transitivity of the strict bytesCompare order. -/
theorem bytesCompare_lt_trans {a b c : Key}
    (hab : bytesCompare a b = Ordering.lt)
    (hbc : bytesCompare b c = Ordering.lt) :
    bytesCompare a c = Ordering.lt := by
  induction a generalizing b c with
  | nil =>
    cases c with
    | nil =>
      cases b with
      | nil => simp [bytesCompare] at hbc
      | cons y bs => simp [bytesCompare] at hbc
    | cons z cs => simp [bytesCompare]
  | cons x as ih =>
    cases b with
    | nil => simp [bytesCompare] at hab
    | cons y bs =>
      cases c with
      | nil => simp [bytesCompare] at hbc
      | cons z cs =>
        rcases bytesCompare_cons_lt.mp hab with hxy | ⟨hxy, hab'⟩ <;>
          rcases bytesCompare_cons_lt.mp hbc with hyz | ⟨hyz, hbc'⟩
        · exact bytesCompare_cons_lt.mpr (Or.inl (by omega))
        · exact bytesCompare_cons_lt.mpr (Or.inl (by omega))
        · exact bytesCompare_cons_lt.mpr (Or.inl (by omega))
        · exact bytesCompare_cons_lt.mpr
            (Or.inr ⟨by omega, ih hab' hbc'⟩)

/-- The pebble store modelled by its observable contents: the stored
key/value pairs in the ascending key order the db iterator yields. -/
structure PebbleKV where
  entries : List (Key × Val)

/-- Strict key order between stored pairs. -/
abbrev keyLT (a b : Key × Val) : Prop :=
  bytesCompare a.1 b.1 = Ordering.lt

/-- The loop exit test of IterateValue: with inc, stop on key > lk;
without, stop on key ≥ lk. -/
def outOfRange (inc : Bool) (k lk : Key) : Bool :=
  match inc, bytesCompare k lk with
  | true, Ordering.gt => true
  | true, _ => false
  | false, Ordering.lt => false
  | false, _ => true

/-- The iteration loop of IterateValue over the pairs the iterator
yields from the SeekGE position on. The first component collects the
pairs op was applied to, in application order (the embedding of the
callback side effects); the second is the Go return value. -/
def iterLoop (lk : Key) (inc : Bool) (op : Key → Val → Bool × Err) :
    List (Key × Val) → List (Key × Val) × Err
  | [] => ([], none)
  | (k, v) :: rest =>
    if outOfRange inc k lk then ([], none)
    else
      match op k v with
      | (_, some e) => ([(k, v)], some e)
      | (true, none) =>
        let p := iterLoop lk inc op rest
        ((k, v) :: p.1, p.2)
      | (false, none) => ([(k, v)], none)

/-- iter.SeekGE(fk) on the sorted contents: drop the pairs below fk. -/
def seekGE (fk : Key) (l : List (Key × Val)) : List (Key × Val) :=
  l.dropWhile fun p => decide (bytesCompare p.1 fk = Ordering.lt)

/-- PebbleKV.IterateValue: seek to the first key ≥ fk, then run the
bounded loop; the trace of op applications is returned alongside the
Go error result. -/
def IterateValue (r : PebbleKV) (fk lk : Key) (inc : Bool)
    (op : Key → Val → Bool × Err) : List (Key × Val) × Err :=
  iterLoop lk inc op (seekGE fk r.entries)

end pebble

namespace pebble

/-- The visited trace is an initial segment of the iterator input. -/
theorem iterLoop_isPrefixSeg (lk : Key) (inc : Bool)
    (op : Key → Val → Bool × Err) (l : List (Key × Val)) :
    ∃ u, l = (iterLoop lk inc op l).1 ++ u := by
  induction l with
  | nil => exact ⟨[], rfl⟩
  | cons hd rest ih =>
    obtain ⟨k, v⟩ := hd
    cases hout : outOfRange inc k lk with
    | true => exact ⟨(k, v) :: rest, by simp [iterLoop, hout]⟩
    | false =>
      cases hop : op k v with
      | mk cont err =>
        cases err with
        | some e => exact ⟨rest, by simp [iterLoop, hout, hop]⟩
        | none =>
          cases cont with
          | false => exact ⟨rest, by simp [iterLoop, hout, hop]⟩
          | true =>
            obtain ⟨u, hu⟩ := ih
            exact ⟨u, by simp [iterLoop, hout, hop]; exact hu⟩

/-- Every visited pair passed the loop's range test. -/
theorem iterLoop_inRange (lk : Key) (inc : Bool)
    (op : Key → Val → Bool × Err) (l : List (Key × Val)) :
    ∀ p ∈ (iterLoop lk inc op l).1, outOfRange inc p.1 lk = false := by
  induction l with
  | nil => intro p hp; simp [iterLoop] at hp
  | cons hd rest ih =>
    obtain ⟨k, v⟩ := hd
    intro p hp
    cases hout : outOfRange inc k lk with
    | true => simp [iterLoop, hout] at hp
    | false =>
      cases hop : op k v with
      | mk cont err =>
        cases err with
        | some e =>
          simp [iterLoop, hout, hop] at hp
          rw [hp]
          exact hout
        | none =>
          cases cont with
          | false =>
            simp [iterLoop, hout, hop] at hp
            rw [hp]
            exact hout
          | true =>
            simp [iterLoop, hout, hop] at hp
            rcases hp with rfl | hp'
            · exact hout
            · exact ih p hp'

/-- When op lets every visited pair continue, the loop visits exactly
the in-range prefix and returns nil. -/
theorem iterLoop_all_continue (lk : Key) (inc : Bool)
    (op : Key → Val → Bool × Err) (l : List (Key × Val))
    (hall : ∀ p ∈ (iterLoop lk inc op l).1, op p.1 p.2 = (true, none)) :
    (iterLoop lk inc op l).1 =
      l.takeWhile (fun p => !(outOfRange inc p.1 lk)) ∧
    (iterLoop lk inc op l).2 = none := by
  induction l with
  | nil => exact ⟨rfl, rfl⟩
  | cons hd rest ih =>
    obtain ⟨k, v⟩ := hd
    cases hout : outOfRange inc k lk with
    | true =>
      constructor <;> simp [iterLoop, List.takeWhile_cons, hout]
    | false =>
      cases hop : op k v with
      | mk cont err =>
        cases err with
        | some e =>
          have h1 : (k, v) ∈ (iterLoop lk inc op ((k, v) :: rest)).1 := by
            simp [iterLoop, hout, hop]
          have h2 := hall _ h1
          simp [hop] at h2
        | none =>
          cases cont with
          | false =>
            have h1 : (k, v) ∈ (iterLoop lk inc op ((k, v) :: rest)).1 := by
              simp [iterLoop, hout, hop]
            have h2 := hall _ h1
            simp [hop] at h2
          | true =>
            have hall' : ∀ p ∈ (iterLoop lk inc op rest).1,
                op p.1 p.2 = (true, none) := by
              intro p hp
              apply hall
              simp [iterLoop, hout, hop]
              exact Or.inr hp
            obtain ⟨ht, he⟩ := ih hall'
            constructor
            · simp [iterLoop, hout, hop, List.takeWhile_cons, ht]
            · simp [iterLoop, hout, hop, he]

/-- A non-nil loop result is the error op returned on the last visited
pair. -/
theorem iterLoop_error (lk : Key) (inc : Bool)
    (op : Key → Val → Bool × Err) (l : List (Key × Val)) (e : String)
    (he : (iterLoop lk inc op l).2 = some e) :
    ∃ pre p, (iterLoop lk inc op l).1 = pre ++ [p] ∧
      (op p.1 p.2).2 = some e := by
  induction l with
  | nil => simp [iterLoop] at he
  | cons hd rest ih =>
    obtain ⟨k, v⟩ := hd
    cases hout : outOfRange inc k lk with
    | true => simp [iterLoop, hout] at he
    | false =>
      cases hop : op k v with
      | mk cont err =>
        cases err with
        | some e' =>
          have hee : e' = e := by
            simpa [iterLoop, hout, hop] using he
          refine ⟨[], (k, v), by simp [iterLoop, hout, hop], ?_⟩
          simp [hop, hee]
        | none =>
          cases cont with
          | false => simp [iterLoop, hout, hop] at he
          | true =>
            have he' : (iterLoop lk inc op rest).2 = some e := by
              simpa [iterLoop, hout, hop] using he
            obtain ⟨pre, p, h1, h2⟩ := ih he'
            exact ⟨(k, v) :: pre, p, by simp [iterLoop, hout, hop, h1], h2⟩

/-- Every visited pair except the last one got (continue, nil) from
op. -/
theorem iterLoop_nonfinal (lk : Key) (inc : Bool)
    (op : Key → Val → Bool × Err) (l : List (Key × Val)) :
    ∀ pre p suf, (iterLoop lk inc op l).1 = pre ++ p :: suf →
      suf ≠ [] → op p.1 p.2 = (true, none) := by
  induction l with
  | nil =>
    intro pre p suf h _
    simp [iterLoop] at h
  | cons hd rest ih =>
    obtain ⟨k, v⟩ := hd
    intro pre p suf h hsuf
    cases hout : outOfRange inc k lk with
    | true => simp [iterLoop, hout] at h
    | false =>
      cases hop : op k v with
      | mk cont err =>
        cases err with
        | some e =>
          simp [iterLoop, hout, hop] at h
          cases pre with
          | nil =>
            simp at h
            exact absurd h.2 hsuf
          | cons q pre' =>
            simp at h
        | none =>
          cases cont with
          | false =>
            simp [iterLoop, hout, hop] at h
            cases pre with
            | nil =>
              simp at h
              exact absurd h.2 hsuf
            | cons q pre' =>
              simp at h
          | true =>
            simp [iterLoop, hout, hop] at h
            cases pre with
            | nil =>
              simp at h
              rw [← h.1]
              exact hop
            | cons q pre' =>
              simp at h
              exact ih pre' p suf h.2 hsuf

end pebble

namespace pebble

/-- Sortedness survives seeking. -/
theorem seekGE_pairwise {l : List (Key × Val)}
    (h : List.Pairwise keyLT l) (fk : Key) :
    List.Pairwise keyLT (seekGE fk l) :=
  List.Pairwise.sublist (List.dropWhile_sublist _) h

/-- Seeking keeps only stored pairs. -/
theorem seekGE_subset {l : List (Key × Val)} (fk : Key) :
    ∀ p ∈ seekGE fk l, p ∈ l := fun _ hp =>
  (List.dropWhile_sublist _).subset hp

/-- On sorted contents, every pair left after SeekGE(fk) has key
≥ fk. -/
theorem seekGE_ge {l : List (Key × Val)} (h : List.Pairwise keyLT l)
    (fk : Key) :
    ∀ p ∈ seekGE fk l, bytesCompare p.1 fk ≠ Ordering.lt := by
  induction l with
  | nil => intro p hp; simp [seekGE] at hp
  | cons a l ih =>
    rw [List.pairwise_cons] at h
    obtain ⟨ha, hl⟩ := h
    intro p hp
    by_cases hfk : bytesCompare a.1 fk = Ordering.lt
    · rw [seekGE, List.dropWhile_cons] at hp
      rw [if_pos (by simp [hfk])] at hp
      exact ih hl p hp
    · rw [seekGE, List.dropWhile_cons] at hp
      rw [if_neg (by simp [hfk])] at hp
      rcases List.mem_cons.mp hp with rfl | hp'
      · exact hfk
      · intro hplt
        exact hfk (bytesCompare_lt_trans (ha p hp') hplt)

/-- The range test fails exactly for keys inside the requested bound:
≤ lk when inclusive, < lk when exclusive. -/
theorem outOfRange_eq_false_iff {inc : Bool} {k lk : Key} :
    outOfRange inc k lk = false ↔
      (inc = true → bytesCompare k lk ≠ Ordering.gt) ∧
      (inc = false → bytesCompare k lk = Ordering.lt) := by
  cases inc <;> cases h : bytesCompare k lk <;> simp [outOfRange, h]

end pebble

namespace pebble

/-- C9: on a sorted store, IterateValue applies op to a prefix of the
pairs from the first stored key ≥ fk on, in ascending key order; every
visited key is a stored key ≥ fk and within the lk bound (≤ lk when
inc, < lk otherwise); if op always answers (continue, nil) the whole
in-range segment is visited and nil is returned; a non-nil return is
exactly the error op gave on the last visited pair; and every visited
pair before the last got (continue, nil) from op — so the loop stops
early, returning nil, when op returns false without an error. -/
theorem C9_IterateValue (r : PebbleKV) (fk lk : Key) (inc : Bool)
    (op : Key → Val → Bool × Err)
    (hsorted : List.Pairwise keyLT r.entries) :
    (∃ u, seekGE fk r.entries = (IterateValue r fk lk inc op).1 ++ u) ∧
    List.Pairwise keyLT (IterateValue r fk lk inc op).1 ∧
    (∀ p ∈ (IterateValue r fk lk inc op).1,
      p ∈ r.entries ∧ bytesCompare p.1 fk ≠ Ordering.lt ∧
      (inc = true → bytesCompare p.1 lk ≠ Ordering.gt) ∧
      (inc = false → bytesCompare p.1 lk = Ordering.lt)) ∧
    ((∀ p ∈ (IterateValue r fk lk inc op).1, op p.1 p.2 = (true, none)) →
      (IterateValue r fk lk inc op).1 =
        (seekGE fk r.entries).takeWhile
          (fun p => !(outOfRange inc p.1 lk)) ∧
      (IterateValue r fk lk inc op).2 = none) ∧
    (∀ e, (IterateValue r fk lk inc op).2 = some e →
      ∃ pre p, (IterateValue r fk lk inc op).1 = pre ++ [p] ∧
        (op p.1 p.2).2 = some e) ∧
    (∀ pre p suf, (IterateValue r fk lk inc op).1 = pre ++ p :: suf →
      suf ≠ [] → op p.1 p.2 = (true, none)) := by
  obtain ⟨u, hu⟩ := iterLoop_isPrefixSeg lk inc op (seekGE fk r.entries)
  have hsub : List.Sublist (IterateValue r fk lk inc op).1
      (seekGE fk r.entries) := by
    conv_rhs => rw [hu]
    exact List.sublist_append_left _ _
  refine ⟨⟨u, hu⟩, ?_, ?_, ?_, ?_, ?_⟩
  · exact List.Pairwise.sublist hsub (seekGE_pairwise hsorted fk)
  · intro p hp
    have hmem : p ∈ seekGE fk r.entries := hsub.subset hp
    have hrange := iterLoop_inRange lk inc op (seekGE fk r.entries) p hp
    have hbound := outOfRange_eq_false_iff.mp hrange
    exact ⟨seekGE_subset fk p hmem, seekGE_ge hsorted fk p hmem,
      hbound.1, hbound.2⟩
  · exact iterLoop_all_continue lk inc op (seekGE fk r.entries)
  · intro e he
    exact iterLoop_error lk inc op (seekGE fk r.entries) e he
  · exact iterLoop_nonfinal lk inc op (seekGE fk r.entries)

/-- Sample sorted store for the C9 witness. -/
def kvS : PebbleKV :=
  { entries := [([1], [10]), ([2], [20]), ([3], [30])] }

/-- Always-continue callback for the C9 witness. -/
def opCont : Key → Val → Bool × Err := fun _ _ => (true, none)

/-- C9 witness: an inclusive scan of [1]..[2] over the concrete store
visits exactly the two in-range pairs and returns nil. -/
theorem C9_IterateValue_witness :
    (IterateValue kvS [1] [2] true opCont).1 =
      [([1], [10]), ([2], [20])] ∧
    (IterateValue kvS [1] [2] true opCont).2 = none := by
  have h := (C9_IterateValue kvS [1] [2] true opCont
    (by decide)).2.2.2.1 (fun p _ => rfl)
  exact ⟨h.1.trans (by decide), h.2⟩

end pebble
